import Mathlib

/-!
Shallow embedding of the checkpoint and merge logic of the
cirtyplanner-download-fema pipeline.

The embedding covers:
* the per-stage skip sets computed from the SQLite logs
  (`get_downloaded_files` in `05_download_shapefiles.py`,
  `already_extracted` in `06a_extract_zip_files.py`);
* the schema analysis, SQL projection building and merge driving of
  `06d_merge_gpkg_files.py` (`sanitize_field_name`, `should_filter_column`,
  `analyze_schema`, `merge_gpkg_files`, `process_filename_group`).

External effects are modelled explicitly: the `ogrinfo` / `ogr2ogr`
invocations are an oracle carried by an `Env`, and the file-system effects of
a merge are recorded as an event trace.  CPython set iteration order (used by
the source for `all_columns`) is a further environment component `setEnum`.
-/

set_option autoImplicit false

namespace Fema

/-! ### Column-name sanitization (`sanitize_field_name`, 06d lines 373-384) -/

/-- Characters allowed by the regex class `[a-z0-9_]`. -/
def allowedChar (c : Char) : Bool :=
  (('a' ≤ c) && (c ≤ 'z')) || (('0' ≤ c) && (c ≤ '9')) || (c == '_')

/-- `str.lower()` applied character-wise. -/
def pyLower (s : String) : String :=
  String.mk (s.data.map Char.toLower)

/-- `re.sub(r'[^a-z0-9_]', '_', s)`. -/
def replaceDisallowed (s : String) : String :=
  String.mk (s.data.map (fun c => if allowedChar c then c else '_'))

/-- `sanitize_field_name`: lower-case, then replace every character outside
`[a-z0-9_]` with an underscore. -/
def sanitize_field_name (s : String) : String :=
  replaceDisallowed (pyLower s)

/-! ### Column denylist (`should_filter_column`, 06d lines 386-405) -/

/-- The filter patterns of `should_filter_column`. -/
def filter_patterns : List String :=
  ["shape_len", "shape_length", "shape_area", "st_length", "st_area"]

/-- Does the second list start with the first? -/
def leadsWith : List Char → List Char → Bool
  | [], _ => true
  | _ :: _, [] => false
  | a :: as, b :: bs => (a == b) && leadsWith as bs

/-- Fuel-indexed split on a non-overlapping separator, left to right (the
fuel is an upper bound on the number of characters consumed). -/
def splitCLAux (sep : List Char) : Nat → List Char → List (List Char)
  | _, [] => [[]]
  | 0, l => [l]
  | fuel + 1, c :: cs =>
    if !sep.isEmpty && leadsWith sep (c :: cs) then
      [] :: splitCLAux sep fuel ((c :: cs).drop sep.length)
    else
      match splitCLAux sep fuel cs with
      | [] => [[c]]
      | h :: t => (c :: h) :: t

/-- Python `s.split(sep)` on character lists. -/
def splitCL (sep l : List Char) : List (List Char) :=
  splitCLAux sep l.length l

/-- Python `s.split(sep)`. -/
def pySplit (s sep : String) : List String :=
  (splitCL sep.data s.data).map String.mk

/-- Python `pat in s` (substring containment, for a nonempty pattern). -/
def strContains (s pat : String) : Bool :=
  (splitCL pat.data s.data).length != 1

/-- Whitespace for Python `str.strip()`. -/
def isSpaceChar (c : Char) : Bool :=
  c == ' ' || c == '\t' || c == '\n' || c == '\r' || c == '\x0b' || c == '\x0c'

/-- Python `s.strip()`. -/
def pyStrip (s : String) : String :=
  String.mk (((s.data.dropWhile isSpaceChar).reverse.dropWhile isSpaceChar).reverse)

/-- Python `s.startswith(pat)`. -/
def pyStartsWith (s pat : String) : Bool :=
  leadsWith pat.data s.data

/-- `should_filter_column`: the lower-cased name contains one of the
denylist patterns as a substring. -/
def should_filter_column (columnName : String) : Bool :=
  filter_patterns.any (fun pat => strContains (pyLower columnName) pat)

/-! ### Checkpoint skip sets (script 05 and script 06a) -/

/-- One row of the `download_log` table (the fields the skip logic reads). -/
structure DownloadRecord where
  product_name : String
  download_success : Bool
deriving DecidableEq, Repr

/-- `get_downloaded_files` (05, lines 215-219):
`SELECT product_name FROM download_log WHERE download_success = 1`. -/
def get_downloaded_files (log : List DownloadRecord) : List String :=
  (log.filter (fun r => r.download_success)).map (fun r => r.product_name)

/-- The skip decision of script 05 (line 297): a product is skipped iff its
name is in the downloaded set. -/
def skipsDownload (log : List DownloadRecord) (productName : String) : Bool :=
  (get_downloaded_files log).contains productName

/-- Status of the latest `download_log` record for a product (the log list is
in insertion order). -/
def latestDownloadStatus (log : List DownloadRecord) (productName : String) :
    Option Bool :=
  ((log.filter (fun r => r.product_name == productName)).getLast?).map
    (fun r => r.download_success)

/-- One row of the `extraction_log` table (the fields the skip logic reads). -/
structure ExtractionRecord where
  zip_file_path : String
  extraction_success : Bool
deriving DecidableEq, Repr

/-- The `already_extracted` set (06a, lines 336-339):
`SELECT zip_file_path FROM extraction_log WHERE extraction_success = 1`. -/
def already_extracted (log : List ExtractionRecord) : List String :=
  (log.filter (fun r => r.extraction_success)).map (fun r => r.zip_file_path)

/-- The skip decision of `extract_all_zip_files` (06a, line 342). -/
def skipsExtraction (log : List ExtractionRecord) (zipPath : String) : Bool :=
  (already_extracted log).contains zipPath

/-- Status of the latest `extraction_log` record for a zip path. -/
def latestExtractionStatus (log : List ExtractionRecord) (zipPath : String) :
    Option Bool :=
  ((log.filter (fun r => r.zip_file_path == zipPath)).getLast?).map
    (fun r => r.extraction_success)

/-! ### The merge environment (external ogrinfo / ogr2ogr, uuid, set order) -/

/-- Result of one `subprocess.run` of the Geometry Tool. -/
structure ToolResult where
  returncode : Int
  stderr : String
deriving DecidableEq, Repr

/-- What happens when `analyze_schema` runs `ogrinfo` on a path: either the
subprocess runs (producing a return code, stderr text and the lines of the
summary output file), or some exception is raised inside the `try` block. -/
inductive IntroEnv where
  | run (returncode : Int) (stderr : String) (lines : List String)
  | raiseExc (msg : String)

/-- The external world of one merge run: `ogrinfo` introspection per path,
`ogr2ogr` results per command line, the 8-character uuid fragment, and
CPython's set iteration order (`setEnum`), which the source relies on when it
iterates over the `all_columns` set. -/
structure Env where
  intro : String → IntroEnv
  tool : List String → ToolResult
  uid : String
  setEnum : List String → List String

/-- A valid set iteration order enumerates exactly the elements of the set. -/
def SetEnumOK (e : List String → List String) : Prop :=
  ∀ l : List String, List.Perm (e l) l

/-! ### `analyze_schema` (06d lines 407-462) -/

/-- The Python value returned by `analyze_schema`: the normal path returns
the pair `(columns, geometry_column)`; the `except` path returns the bare
list `[]` (06d line 462), which does not unpack into two values. -/
inductive SchemaResult where
  | pair (cols : List String) (geom : Option String)
  | bareList
deriving DecidableEq, Repr

/-- The line loop of `analyze_schema` (06d lines 436-451).  A "Geometry
Column" line with no `=` raises `IndexError` (`line.split("=")[1]`). -/
def parseLines (lines : List String) : Except String (List String × Option String) :=
  lines.foldlM
    (fun (acc : List String × Option String) line =>
      if strContains line "Geometry Column" then
        match (pySplit line "=").get? 1 with
        | none => Except.error "IndexError: list index out of range"
        | some s => Except.ok (acc.1, some (pyStrip s))
      else if strContains line ":" && !(pyStartsWith (pyStrip line) "INFO") then
        let columnName := pyStrip ((pySplit line ":").headD "")
        if columnName != "" && columnName != "Geometry" && columnName != "FID" then
          if should_filter_column columnName then Except.ok acc
          else Except.ok (acc.1 ++ [sanitize_field_name columnName], acc.2)
        else Except.ok acc
      else Except.ok acc)
    ([], none)

/-- `analyze_schema`: a failing `ogrinfo` returns `([], None)`; a parse with
no geometry column (or an empty one, which is falsy) falls back to
`"GEOMETRY"`; any exception inside the `try` returns the bare list `[]`. -/
def analyze_schema (env : Env) (gpkgPath : String) : SchemaResult :=
  match env.intro gpkgPath with
  | IntroEnv.raiseExc _ => SchemaResult.bareList
  | IntroEnv.run rc _ lines =>
    if rc != 0 then SchemaResult.pair [] none
    else
      match parseLines lines with
      | Except.error _ => SchemaResult.bareList
      | Except.ok (cols, geomOpt) =>
        match geomOpt with
        | none => SchemaResult.pair cols (some "GEOMETRY")
        | some "" => SchemaResult.pair cols (some "GEOMETRY")
        | some g => SchemaResult.pair cols (some g)

/-- The sanitized, denylist-filtered column list `analyze_schema` reports for
a path (empty when the tool errors or the analysis raised). -/
def schemaColsOf (env : Env) (gpkgPath : String) : List String :=
  match analyze_schema env gpkgPath with
  | SchemaResult.pair cols _ => cols
  | SchemaResult.bareList => []

/-- The geometry column `analyze_schema` reports for a path (`none` both for
the failing-`ogrinfo` pair `([], None)` and for the bare-list value). -/
def schemaGeomOf (env : Env) (gpkgPath : String) : Option String :=
  match analyze_schema env gpkgPath with
  | SchemaResult.pair _ g => g
  | SchemaResult.bareList => none

/-! ### Canonical columns and geometry column (06d lines 483-510) -/

/-- First-occurrence deduplication: the membership content of a Python
`set`/`dict` built by successive insertion, in first-seen order. -/
def dedupFirst {α : Type} [DecidableEq α] : List α → List α
  | [] => []
  | x :: xs => x :: (dedupFirst xs).filter (fun y => y != x)

/-- The members of the `all_columns` set in first-seen order (before the
reserved provenance column is removed). -/
def firstSeenColumnsUnion (env : Env) (files : List (String × String)) :
    List String :=
  dedupFirst (files.flatMap (fun f => schemaColsOf env f.2))

/-- The `all_columns` set as iterated by the source (`for col in all_columns`):
the union of all files' reported columns, minus `product_name` (06d lines
496-497), enumerated in the environment's set iteration order. -/
def mergeAllColumns (env : Env) (files : List (String × String)) :
    List String :=
  env.setEnum ((firstSeenColumnsUnion env files).erase "product_name")

/-- The values of the `geometry_columns` dict, one per distinct
`(product_name, gpkg_path)` key, in insertion order. -/
def geomVals (env : Env) (files : List (String × String)) :
    List (Option String) :=
  (dedupFirst files).map (fun f => schemaGeomOf env f.2)

/-- Occurrence count of an element in a list. -/
def countOcc {α : Type} [DecidableEq α] (l : List α) (x : α) : Nat :=
  (l.filter (fun y => y == x)).length

/-- `max(counts.items(), key=lambda x: x[1])[0]`: the first distinct element
(in first-seen order) attaining the maximal occurrence count. -/
def firstMostCommon {α : Type} [DecidableEq α] (l : List α) : Option α :=
  match dedupFirst l with
  | [] => none
  | d :: ds =>
    some (ds.foldl (fun best x => if countOcc l x > countOcc l best then x else best) d)

/-- `common_geom_col` (06d lines 501-509): the most common geometry-column
name, ties broken by first occurrence.  The source computes and logs this
value; the inner `Option` is the dict key, which can be Python `None`. -/
def commonGeomCol (env : Env) (files : List (String × String)) :
    Option (Option String) :=
  firstMostCommon (geomVals env files)

/-! ### SQL projection building (06d lines 522-541 and 563-582) -/

/-- `os.path.basename` (Windows flavour: both separators). -/
def pyBasename (p : String) : String :=
  ((pySplit (String.mk (p.data.map (fun c => if c == '\\' then '/' else c))) "/").getLastD "")

/-- The root part of `os.path.splitext`. -/
def pySplitextRoot (name : String) : String :=
  let parts := pySplit name "."
  if parts.length ≤ 1 then name else String.intercalate "." parts.dropLast

/-- The layer name used in the SQL query: filename without extension. -/
def layerName (p : String) : String :=
  pySplitextRoot (pyBasename p)

/-- One projection clause for a canonical column: the real column aliased to
its sanitized name when present, a NULL literal otherwise. -/
def colClause (fileCols : List String) (col : String) : String :=
  if fileCols.contains col then
    "\x22" ++ col ++ "\x22 AS \x22" ++ sanitize_field_name col ++ "\x22"
  else
    "NULL AS \x22" ++ sanitize_field_name col ++ "\x22"

/-- The geometry clause: the source's own geometry column aliased to its own
sanitized name. -/
def geomClauseStr (g : String) : String :=
  g ++ " AS " ++ sanitize_field_name g

/-- The `sql_columns` list: geometry clause first, then one clause per
canonical column, then the provenance literal. -/
def sqlColumnsFor (allCols fileCols : List String) (g productName : String) :
    List String :=
  geomClauseStr g :: allCols.map (colClause fileCols)
    ++ ["\x27" ++ productName ++ "\x27 AS product_name"]

/-- The full projection query built for one source. -/
def sourceSql (env : Env) (allCols : List String)
    (productName gpkgPath g : String) : String :=
  "SELECT "
    ++ String.intercalate ", " (sqlColumnsFor allCols (schemaColsOf env gpkgPath) g productName)
    ++ " FROM " ++ layerName gpkgPath

/-! ### ogr2ogr command lines and the event trace -/

/-- The private temporary output `{temp_dir}/{filename}_{uuid8}.gpkg`. -/
def tempOutputPath (tempDir filename uid : String) : String :=
  tempDir ++ "/" ++ filename ++ "_" ++ uid ++ ".gpkg"

/-- The seed command (06d lines 544-552). -/
def seedCmd (sql filename g tempOut src : String) : List String :=
  ["ogr2ogr", "-f", "GPKG", "-sql", sql, "-nln", filename,
    "-geomfield", g, tempOut, src]

/-- The append command (06d lines 585-596). -/
def appendCmd (sql filename g tempOut src : String) : List String :=
  ["ogr2ogr", "-f", "GPKG", "-update", "-append", "-skipfailures",
    "-sql", sql, "-nln", filename, "-geomfield", g, tempOut, src]

/-- Observable effects of one merge run, in order.  `copyStart`/`copyFinish`
bracket the non-atomic `shutil.copy2(temp_output, output_path)`: between the
two, the canonical output path holds an incomplete file. -/
inductive Ev where
  | analyzeCall (gpkgPath : String)
  | toolCall (cmd : List String)
  | removeFinal
  | copyStart
  | copyFinish
  | removeTemp
deriving DecidableEq, Repr

/-- Overall result of `merge_gpkg_files`: the returned
`(success, error_message)` pair plus the recorded event trace. -/
structure MergeOutcome where
  success : Bool
  err : Option String
  events : List Ev
deriving DecidableEq, Repr

/-- Message of the `ValueError` raised when the bare list returned by the
`except` path of `analyze_schema` is unpacked into two variables. -/
def valueErrorMsg : String := "ValueError: not enough values to unpack"

/-- Message of the `AttributeError` raised when `sanitize_field_name` is
applied to a `None` geometry column. -/
def attributeErrorMsg : String := "AttributeError: NoneType has no attribute lower"

/-- The schema-analysis loop (06d lines 489-493): one `analyze_schema` call
per file; unpacking the bare-list value raises `ValueError` at that file. -/
def analyzePhase (env : Env) : List (String × String) → List Ev × Option String
  | [] => ([], none)
  | f :: rest =>
    match analyze_schema env f.2 with
    | SchemaResult.bareList => ([Ev.analyzeCall f.2], some valueErrorMsg)
    | SchemaResult.pair _ _ =>
      let r := analyzePhase env rest
      (Ev.analyzeCall f.2 :: r.1, r.2)

/-- The append loop (06d lines 560-602): builds the SQL (raising if the
geometry column is `None`), runs `ogr2ogr`, and continues with the next file
whatever the tool's return code is. -/
def appendPhase (env : Env) (allCols : List String) (filename tempOut : String) :
    List (String × String) → List Ev × Option String
  | [] => ([], none)
  | f :: rest =>
    match schemaGeomOf env f.2 with
    | none => ([], some attributeErrorMsg)
    | some g =>
      let cmd := appendCmd (sourceSql env allCols f.1 f.2 g) filename g tempOut f.2
      let _ := env.tool cmd
      let r := appendPhase env allCols filename tempOut rest
      (Ev.toolCall cmd :: r.1, r.2)

/-- The seed command built for the first file, given its reported geometry. -/
def seedCmdOf (env : Env) (allCols : List String) (filename tempOut : String)
    (f : String × String) : List String :=
  match schemaGeomOf env f.2 with
  | some g => seedCmd (sourceSql env allCols f.1 f.2 g) filename g tempOut f.2
  | none => []

/-- The append command built for a subsequent file, given its reported
geometry. -/
def appendCmdOf (env : Env) (allCols : List String) (filename tempOut : String)
    (f : String × String) : List String :=
  match schemaGeomOf env f.2 with
  | some g => appendCmd (sourceSql env allCols f.1 f.2 g) filename g tempOut f.2
  | none => []

/-- `merge_gpkg_files` (06d lines 464-627).  `outputExists` is whether a file
is present at `output_path`; the early-exit check (line 477), the schema
analysis, the seed copy, the append loop, and the final
remove / copy2 / remove-temp sequence (lines 604-613) are modelled in order.
Exceptions raised inside the big `try` produce the
`"Error merging files: ..."` failure result (line 624-627). -/
def merge_gpkg_files (env : Env) (files : List (String × String))
    (filename outputPath tempDir : String) (outputExists forceRebuild : Bool) :
    MergeOutcome :=
  match files with
  | [] => ⟨false, some "No files to merge", []⟩
  | f0 :: rest =>
    if outputExists && !forceRebuild then
      ⟨false, some "Output file already exists", []⟩
    else
      let ap := analyzePhase env (f0 :: rest)
      match ap.2 with
      | some m => ⟨false, some ("Error merging files: " ++ m), ap.1⟩
      | none =>
        let allCols := mergeAllColumns env (f0 :: rest)
        match schemaGeomOf env f0.2 with
        | none => ⟨false, some ("Error merging files: " ++ attributeErrorMsg), ap.1⟩
        | some g0 =>
          let tempOut := tempOutputPath tempDir filename env.uid
          let cmd0 := seedCmd (sourceSql env allCols f0.1 f0.2 g0) filename g0 tempOut f0.2
          let r0 := env.tool cmd0
          if r0.returncode != 0 then
            ⟨false, some r0.stderr, ap.1 ++ [Ev.toolCall cmd0]⟩
          else
            let app := appendPhase env allCols filename tempOut rest
            match app.2 with
            | some m =>
              ⟨false, some ("Error merging files: " ++ m),
                ap.1 ++ Ev.toolCall cmd0 :: app.1⟩
            | none =>
              ⟨true, none,
                ap.1 ++ Ev.toolCall cmd0 :: app.1
                  ++ (if outputExists then [Ev.removeFinal] else [])
                  ++ [Ev.copyStart, Ev.copyFinish, Ev.removeTemp]⟩

/-- One row inserted into `merge_06d_log` (06d lines 651-664). -/
structure LogRow where
  filename_group : String
  source_files_count : Nat
  merged_gpkg_path : String
  merge_success : Bool
  error_message : Option String
deriving DecidableEq, Repr

/-- `process_filename_group` (06d lines 629-668): with no files it returns
early without logging; otherwise it merges and inserts one row recording the
group-level boolean outcome. -/
def process_filename_group (env : Env) (files : List (String × String))
    (filename mergedGpkgPath tempDir : String) (outputExists forceRebuild : Bool) :
    Bool × Option LogRow :=
  if files.isEmpty then (false, none)
  else
    let outputPath := mergedGpkgPath ++ "/" ++ filename ++ ".gpkg"
    let m := merge_gpkg_files env files filename outputPath tempDir outputExists forceRebuild
    (m.success, some ⟨filename, files.length, outputPath, m.success,
      if m.success then none else m.err⟩)

/-! ### The canonical output path as a state machine over the trace -/

/-- Contents of the canonical output path during a merge: still whatever was
there initially, deleted, half-written by the in-progress copy, or the
complete new output. -/
inductive CanonState where
  | initial
  | absent
  | halfWritten
  | complete
deriving DecidableEq, Repr

/-- Effect of one event on the canonical output path. -/
def canonStep (s : CanonState) : Ev → CanonState
  | Ev.removeFinal => CanonState.absent
  | Ev.copyStart => CanonState.halfWritten
  | Ev.copyFinish => CanonState.complete
  | _ => s

/-- State of the canonical output path after a prefix of the trace. -/
def canonicalAfter (evs : List Ev) : CanonState :=
  evs.foldl canonStep CanonState.initial

/-- Events that modify the canonical output path. -/
def touchesCanonical : Ev → Bool
  | Ev.removeFinal => true
  | Ev.copyStart => true
  | Ev.copyFinish => true
  | _ => false

/-! ### Concrete environments used by witnesses and counterexamples -/

/-- `ogrinfo` succeeds with an empty summary: no columns, no geometry line
(so `analyze_schema` falls back to `"GEOMETRY"`). -/
def introEmpty : String → IntroEnv := fun _ => IntroEnv.run 0 "" []

/-- `ogr2ogr` always succeeds. -/
def toolOK : List String → ToolResult := fun _ => ⟨0, ""⟩

/-- A set iteration order that happens to keep insertion order. -/
def enumId : List String → List String := fun l => l

/-- A set iteration order that enumerates in reverse. -/
def enumRev : List String → List String := fun l => l.reverse

/-- All-success environment with trivially empty schemas. -/
def envOK : Env := ⟨introEmpty, toolOK, "u1", enumId⟩

/-- `ogrinfo` reports one attribute column `a` and no geometry line. -/
def introColA : String → IntroEnv :=
  fun _ => IntroEnv.run 0 "" ["a: String (10.0)"]

/-- Environment whose every source has the single column `a`. -/
def envColA : Env := ⟨introColA, toolOK, "u1", enumId⟩

/-- `ogrinfo` reports a real attribute column that sanitizes to
`product_name`. -/
def introProdCol : String → IntroEnv :=
  fun _ => IntroEnv.run 0 "" ["Product Name: String (254.0)"]

/-- Environment whose every source has a real `Product Name` column. -/
def envProdCol : Env := ⟨introProdCol, toolOK, "u1", enumId⟩

/-! ### C5 -/

/-- `ogrinfo` output for a two-file group with columns `{a,b}` and `{b,c}`
and geometry column `geom` for both. -/
def introSchemasAB : String → IntroEnv := fun p =>
  if p == "f1.gpkg" then
    IntroEnv.run 0 "" ["a: String (1.0)", "b: String (1.0)", "Geometry Column = geom"]
  else
    IntroEnv.run 0 "" ["b: String (1.0)", "c: String (1.0)", "Geometry Column = geom"]

/-- The AB-schema environment under insertion set order. -/
def envEnumA : Env := ⟨introSchemasAB, toolOK, "u1", enumId⟩

/-- The AB-schema environment under reversed set order: same introspection
results, same uuid, same tool, different interpreter set iteration. -/
def envEnumB : Env := ⟨introSchemasAB, toolOK, "u1", enumRev⟩

/-! ### C6 -/

/-- `ogrinfo` output for a three-file group with geometry columns
`geom`, `geom`, `shape`. -/
def introGeoms : String → IntroEnv := fun p =>
  if p == "f3.gpkg" then IntroEnv.run 0 "" ["Geometry Column = shape"]
  else IntroEnv.run 0 "" ["Geometry Column = geom"]

/-- Environment for the geometry-column scenario. -/
def envGeoms : Env := ⟨introGeoms, toolOK, "u1", enumId⟩

/-! ### C8 -/

/-- `ogrinfo` fails (nonzero return code) on `f2.gpkg` and succeeds
elsewhere. -/
def introToolErr : String → IntroEnv := fun p =>
  if p == "f2.gpkg" then IntroEnv.run 1 "ogrinfo failed" []
  else IntroEnv.run 0 "" ["Geometry Column = geom"]

/-- Environment where introspection of `f2.gpkg` reports a tool error. -/
def envToolErr : Env := ⟨introToolErr, toolOK, "u1", enumId⟩

/-- Introspection of `f2.gpkg` raises an exception; other paths succeed. -/
def introRaise : String → IntroEnv := fun p =>
  if p == "f2.gpkg" then IntroEnv.raiseExc "boom"
  else IntroEnv.run 0 "" ["Geometry Column = geom"]

/-- Environment where introspection of `f2.gpkg` raises. -/
def envRaise : Env := ⟨introRaise, toolOK, "u1", enumId⟩

/-- `ogr2ogr` fails exactly on the commands whose source is `f2.gpkg`. -/
def toolFailF2 : List String → ToolResult := fun cmd =>
  if cmd.getLastD "" == "f2.gpkg" then ⟨1, "corrupt source"⟩ else ⟨0, ""⟩

/-- Environment where appending source #2 of 3 fails. -/
def envFail2 : Env := ⟨introEmpty, toolFailF2, "u1", enumId⟩

/-! ### Lemmas and claim theorems -/

/-! ### Basic lemmas about the skip sets -/

theorem skipsDownload_iff (log : List DownloadRecord) (p : String) :
    skipsDownload log p = true ↔
      ∃ r ∈ log, r.product_name = p ∧ r.download_success = true := by
  simp only [skipsDownload, get_downloaded_files, List.contains, List.elem_iff,
    List.mem_map, List.mem_filter]
  constructor
  · rintro ⟨r, ⟨hr, hs⟩, hp⟩
    exact ⟨r, hr, hp, hs⟩
  · rintro ⟨r, hr, hp, hs⟩
    exact ⟨r, ⟨hr, hs⟩, hp⟩

theorem skipsExtraction_iff (log : List ExtractionRecord) (z : String) :
    skipsExtraction log z = true ↔
      ∃ r ∈ log, r.zip_file_path = z ∧ r.extraction_success = true := by
  simp only [skipsExtraction, already_extracted, List.contains, List.elem_iff,
    List.mem_map, List.mem_filter]
  constructor
  · rintro ⟨r, ⟨hr, hs⟩, hp⟩
    exact ⟨r, hr, hp, hs⟩
  · rintro ⟨r, hr, hp, hs⟩
    exact ⟨r, ⟨hr, hs⟩, hp⟩

theorem enumId_ok : SetEnumOK enumId := fun l => List.Perm.refl l

theorem enumRev_ok : SetEnumOK enumRev := fun l => List.reverse_perm l

/-! ### Helper lemmas about the phases -/

theorem analyzePhase_ok (env : Env) :
    ∀ l : List (String × String),
      (∀ f ∈ l, analyze_schema env f.2 ≠ SchemaResult.bareList) →
      analyzePhase env l = (l.map (fun f => Ev.analyzeCall f.2), none) := by
  intro l
  induction l with
  | nil => intro _; rfl
  | cons f rest ih =>
    intro h
    have hf := h f (List.mem_cons_self f rest)
    have hr := ih (fun g hg => h g (List.mem_cons_of_mem f hg))
    simp only [analyzePhase]
    cases hfa : analyze_schema env f.2 with
    | bareList => exact absurd hfa hf
    | pair cols geom => simp [hr]

theorem analyzePhase_exc (env : Env) :
    ∀ l : List (String × String),
      (∃ f ∈ l, analyze_schema env f.2 = SchemaResult.bareList) →
      (analyzePhase env l).2 = some valueErrorMsg := by
  intro l
  induction l with
  | nil => rintro ⟨f, hf, -⟩; cases hf
  | cons f rest ih =>
    rintro ⟨g, hg, hgb⟩
    simp only [analyzePhase]
    cases hfa : analyze_schema env f.2 with
    | bareList => rfl
    | pair cols geom =>
      rcases List.mem_cons.mp hg with rfl | hg'
      · rw [hfa] at hgb; cases hgb
      · exact ih ⟨g, hg', hgb⟩

theorem analyzePhase_events (env : Env) :
    ∀ l : List (String × String), ∀ e ∈ (analyzePhase env l).1,
      ∃ p, e = Ev.analyzeCall p := by
  intro l
  induction l with
  | nil => intro e he; simp [analyzePhase] at he
  | cons f rest ih =>
    intro e he
    revert he
    cases hfa : analyze_schema env f.2 with
    | bareList =>
      intro he
      simp only [analyzePhase, hfa, List.mem_singleton] at he
      exact ⟨f.2, he⟩
    | pair cols geom =>
      intro he
      simp only [analyzePhase, hfa, List.mem_cons] at he
      rcases he with rfl | h'
      · exact ⟨f.2, rfl⟩
      · exact ih e h'

theorem appendPhase_ok (env : Env) (allCols : List String) (fn tmp : String) :
    ∀ l : List (String × String),
      (∀ f ∈ l, schemaGeomOf env f.2 ≠ none) →
      appendPhase env allCols fn tmp l =
        (l.map (fun f => Ev.toolCall (appendCmdOf env allCols fn tmp f)), none) := by
  intro l
  induction l with
  | nil => intro _; rfl
  | cons f rest ih =>
    intro h
    have hf := h f (List.mem_cons_self f rest)
    have hr := ih (fun g hg => h g (List.mem_cons_of_mem f hg))
    cases hg : schemaGeomOf env f.2 with
    | none => exact absurd hg hf
    | some g =>
      simp only [appendPhase, hg, hr]
      simp [appendCmdOf, hg]

theorem appendPhase_exc (env : Env) (allCols : List String) (fn tmp : String) :
    ∀ l : List (String × String),
      (∃ f ∈ l, schemaGeomOf env f.2 = none) →
      (appendPhase env allCols fn tmp l).2 = some attributeErrorMsg := by
  intro l
  induction l with
  | nil => rintro ⟨f, hf, -⟩; cases hf
  | cons f rest ih =>
    rintro ⟨g, hg, hgn⟩
    cases hfa : schemaGeomOf env f.2 with
    | none => simp [appendPhase, hfa]
    | some gg =>
      rcases List.mem_cons.mp hg with rfl | hg'
      · rw [hfa] at hgn; cases hgn
      · simp only [appendPhase, hfa]
        exact ih ⟨g, hg', hgn⟩

theorem appendPhase_events (env : Env) (allCols : List String) (fn tmp : String) :
    ∀ l : List (String × String), ∀ e ∈ (appendPhase env allCols fn tmp l).1,
      ∃ sql g src, e = Ev.toolCall (appendCmd sql fn g tmp src) := by
  intro l
  induction l with
  | nil => intro e he; simp [appendPhase] at he
  | cons f rest ih =>
    intro e he
    revert he
    cases hfa : schemaGeomOf env f.2 with
    | none =>
      intro he
      simp only [appendPhase, hfa] at he
      simp at he
    | some g =>
      intro he
      simp only [appendPhase, hfa, List.mem_cons] at he
      rcases he with rfl | h'
      · exact ⟨sourceSql env allCols f.1 f.2 g, g, f.2, rfl⟩
      · exact ih e h'

/-! ### Helper lemmas about `dedupFirst` and the first-seen maximum -/

theorem dedupFirst_mem {α : Type} [DecidableEq α] (x : α) :
    ∀ l : List α, x ∈ dedupFirst l ↔ x ∈ l := by
  intro l
  induction l with
  | nil => simp [dedupFirst]
  | cons a as ih =>
    simp only [dedupFirst, List.mem_cons, List.mem_filter, bne_iff_ne, ne_eq]
    constructor
    · rintro (rfl | ⟨hx, -⟩)
      · exact Or.inl rfl
      · exact Or.inr (ih.mp hx)
    · rintro (rfl | hx)
      · exact Or.inl rfl
      · by_cases hax : x = a
        · exact Or.inl hax
        · exact Or.inr ⟨ih.mpr hx, hax⟩

theorem dedupFirst_nodup {α : Type} [DecidableEq α] :
    ∀ l : List α, (dedupFirst l).Nodup := by
  intro l
  induction l with
  | nil => simp [dedupFirst]
  | cons a as ih =>
    simp only [dedupFirst, List.nodup_cons]
    refine ⟨?_, List.Nodup.filter _ ih⟩
    intro ha
    simp [List.mem_filter] at ha

theorem foldl_firstMax {α : Type} [DecidableEq α] (cnt : α → Nat) :
    ∀ (ds : List α) (b : α),
      ∃ pre post,
        b :: ds =
            pre ++ (ds.foldl (fun best x => if cnt x > cnt best then x else best) b) :: post ∧
          (∀ x ∈ pre,
            cnt x < cnt (ds.foldl (fun best x => if cnt x > cnt best then x else best) b)) ∧
          (∀ x ∈ b :: ds,
            cnt x ≤ cnt (ds.foldl (fun best x => if cnt x > cnt best then x else best) b)) := by
  intro ds
  induction ds with
  | nil =>
    intro b
    exact ⟨[], [], rfl, by simp, by simp⟩
  | cons x ds ih =>
    intro b
    by_cases hx : cnt x > cnt b
    · obtain ⟨pre, post, heq, hpre, hall⟩ := ih x
      have hstep : (x :: ds).foldl (fun best y => if cnt y > cnt best then y else best) b =
          ds.foldl (fun best y => if cnt y > cnt best then y else best) x := by
        simp [List.foldl_cons, if_pos hx]
      rw [hstep]
      refine ⟨b :: pre, post, ?_, ?_, ?_⟩
      · simpa using congrArg (b :: ·) heq
      · intro y hy
        rcases List.mem_cons.mp hy with rfl | hy'
        · exact lt_of_lt_of_le hx (hall x (List.mem_cons_self x ds))
        · exact hpre y hy'
      · intro y hy
        rcases List.mem_cons.mp hy with rfl | hy'
        · exact le_of_lt (lt_of_lt_of_le hx (hall x (List.mem_cons_self x ds)))
        · exact hall y hy'
    · obtain ⟨pre, post, heq, hpre, hall⟩ := ih b
      have hxb : cnt x ≤ cnt b := Nat.le_of_not_lt hx
      have hstep : (x :: ds).foldl (fun best y => if cnt y > cnt best then y else best) b =
          ds.foldl (fun best y => if cnt y > cnt best then y else best) b := by
        simp [List.foldl_cons, if_neg hx]
      rw [hstep]
      have hbr : cnt b ≤ cnt (ds.foldl (fun best y => if cnt y > cnt best then y else best) b) :=
        hall b (List.mem_cons_self b ds)
      cases pre with
      | nil =>
        simp only [List.nil_append] at heq
        obtain ⟨hrb, hpost⟩ := List.cons.inj heq
        refine ⟨[], x :: post, ?_, by simp, ?_⟩
        · simp only [List.nil_append]
          rw [← hrb, ← hpost]
        · intro y hy
          rcases List.mem_cons.mp hy with rfl | hy'
          · exact hbr
          · rcases List.mem_cons.mp hy' with rfl | hy''
            · exact le_trans hxb hbr
            · exact hall y (List.mem_cons_of_mem b hy'')
      | cons p pre' =>
        simp only [List.cons_append] at heq
        obtain ⟨hpb, hds⟩ := List.cons.inj heq
        refine ⟨b :: x :: pre', post, ?_, ?_, ?_⟩
        · simp only [List.cons_append]
          exact congrArg (fun t => b :: x :: t) hds
        · intro y hy
          rcases List.mem_cons.mp hy with rfl | hy'
          · have hpr := hpre p (List.mem_cons_self p pre')
            rw [congrArg cnt hpb]
            exact hpr
          · rcases List.mem_cons.mp hy' with rfl | hy''
            · have hpr := hpre p (List.mem_cons_self p pre')
              rw [← hpb] at hpr
              exact lt_of_le_of_lt hxb hpr
            · exact hpre y (List.mem_cons_of_mem p hy'')
        · intro y hy
          rcases List.mem_cons.mp hy with rfl | hy'
          · exact hbr
          · rcases List.mem_cons.mp hy' with rfl | hy''
            · exact le_trans hxb hbr
            · exact hall y (List.mem_cons_of_mem b hy'')

theorem firstMostCommon_spec {α : Type} [DecidableEq α] (l : List α) (hl : l ≠ []) :
    ∃ r, firstMostCommon l = some r ∧
      (∃ pre post, dedupFirst l = pre ++ r :: post ∧ ∀ x ∈ pre, countOcc l x < countOcc l r) ∧
      (∀ x ∈ l, countOcc l x ≤ countOcc l r) := by
  cases hdd : dedupFirst l with
  | nil =>
    cases l with
    | nil => exact absurd rfl hl
    | cons a as => simp [dedupFirst] at hdd
  | cons d ds =>
    obtain ⟨pre, post, heq, hpre, hall⟩ := foldl_firstMax (countOcc l) ds d
    refine ⟨_, ?_, ⟨pre, post, ?_, hpre⟩, ?_⟩
    · simp [firstMostCommon, hdd]
    · exact heq
    · intro x hx
      have hx' : x ∈ dedupFirst l := (dedupFirst_mem x l).mpr hx
      rw [hdd] at hx'
      exact hall x hx'

/-! ### C9 -/

/-- C9: for every column name, sanitization lower-cases the name and then
replaces every character outside `[a-z0-9_]` with an underscore; in
particular `"Product ID#"` sanitizes to `"product_id_"`. -/
theorem C9_sanitize_spec :
    (∀ s : String, (sanitize_field_name s).data =
      s.data.map (fun c => if allowedChar c.toLower then c.toLower else '_')) ∧
    sanitize_field_name "Product ID#" = "product_id_" := by
  constructor
  · intro s
    simp [sanitize_field_name, replaceDisallowed, pyLower, List.map_map, Function.comp]
  · decide

/-! ### C1 -/

/-- C1 counterexample: a unit whose earliest record is Succeeded and whose
latest record is Failed is still in the skip set, although the latest record
for the pair does not have status Succeeded. -/
theorem C1_counterexample :
    skipsDownload [⟨"P1", true⟩, ⟨"P1", false⟩] "P1" = true ∧
    latestDownloadStatus [⟨"P1", true⟩, ⟨"P1", false⟩] "P1" = some false := by
  decide

/-- C1 (amended): a run skips a unit iff SOME checkpoint record for that
(stage, unit key) has status Succeeded — the skip queries are
`WHERE ..._success = 1` with no "latest" restriction — for both the download
stage and the extraction stage. -/
theorem C1_skip_iff_some_success :
    (∀ (log : List DownloadRecord) (p : String),
        skipsDownload log p = true ↔
          ∃ r ∈ log, r.product_name = p ∧ r.download_success = true) ∧
    (∀ (log : List ExtractionRecord) (z : String),
        skipsExtraction log z = true ↔
          ∃ r ∈ log, r.zip_file_path = z ∧ r.extraction_success = true) :=
  ⟨skipsDownload_iff, skipsExtraction_iff⟩

/-! ### C10 -/

/-- C10: when the output file already exists and force-rebuild was not
requested, the merge returns failure with message "Output file already
exists" without invoking the Geometry Tool at all (the event trace is
empty), and `process_filename_group` inserts a `merge_success = false` row
for the group. -/
theorem C10_existing_output_failure (env : Env) (f0 : String × String)
    (rest : List (String × String)) (filename mergedDir tempDir : String) :
    merge_gpkg_files env (f0 :: rest) filename
        (mergedDir ++ "/" ++ filename ++ ".gpkg") tempDir true false =
      ⟨false, some "Output file already exists", []⟩ ∧
    process_filename_group env (f0 :: rest) filename mergedDir tempDir true false =
      (false, some ⟨filename, (f0 :: rest).length,
        mergedDir ++ "/" ++ filename ++ ".gpkg", false,
        some "Output file already exists"⟩) :=
  ⟨rfl, rfl⟩

/-! ### C7 -/

/-- C7 counterexample: a source with a real column sanitizing to
`product_name` has that column dropped from the canonical column set, so the
canonical set is not a superset of the source's sanitized, non-denylisted
columns. -/
theorem C7_counterexample :
    "product_name" ∈ schemaColsOf envProdCol "f1.gpkg" ∧
    should_filter_column "Product Name" = false ∧
    "product_name" ∉ mergeAllColumns envProdCol [("p1", "f1.gpkg")] := by
  decide

/-- C7 (amended): the canonical column set is a superset of every input
source's sanitized, non-denylisted columns except the reserved provenance
name `product_name`, which is removed from the union. -/
theorem C7_union_superset_except_provenance (env : Env)
    (files : List (String × String)) (h : SetEnumOK env.setEnum) :
    ∀ f ∈ files, ∀ c ∈ schemaColsOf env f.2, c ≠ "product_name" →
      c ∈ mergeAllColumns env files := by
  intro f hf c hc hcp
  have h1 : c ∈ files.flatMap (fun g => schemaColsOf env g.2) :=
    List.mem_flatMap.mpr ⟨f, hf, hc⟩
  have h2 : c ∈ firstSeenColumnsUnion env files :=
    (dedupFirst_mem c _).mpr h1
  have h3 : c ∈ (firstSeenColumnsUnion env files).erase "product_name" :=
    (List.mem_erase_of_ne hcp).mpr h2
  exact ((h _).mem_iff).mpr h3

/-- C7 witness: concrete instance of the amended superset property. -/
theorem C7_witness :
    SetEnumOK envColA.setEnum ∧
    ("a" ∈ schemaColsOf envColA "f1.gpkg" ∧ "a" ≠ "product_name") ∧
    "a" ∈ mergeAllColumns envColA [("p1", "f1.gpkg")] :=
  ⟨enumId_ok, ⟨by decide, by decide⟩,
    C7_union_superset_except_provenance envColA [("p1", "f1.gpkg")] enumId_ok
      ("p1", "f1.gpkg") (by decide) "a" (by decide) (by decide)⟩

/-- C5 counterexample: two runs over the same source list with identical
introspection results (identical `intro`, `tool`, `uid`) but different — both
legitimate — set iteration orders produce different projection plans, and the
second run's canonical column order is not the first-seen order, refuting
byte-identical plans with first-seen column order. -/
theorem C5_counterexample :
    SetEnumOK envEnumA.setEnum ∧ SetEnumOK envEnumB.setEnum ∧
    envEnumA.intro = envEnumB.intro ∧ envEnumA.tool = envEnumB.tool ∧
    envEnumA.uid = envEnumB.uid ∧
    firstSeenColumnsUnion envEnumA [("p1", "f1.gpkg"), ("p2", "f2.gpkg")] =
      ["a", "b", "c"] ∧
    mergeAllColumns envEnumB [("p1", "f1.gpkg"), ("p2", "f2.gpkg")] =
      ["c", "b", "a"] ∧
    merge_gpkg_files envEnumA [("p1", "f1.gpkg"), ("p2", "f2.gpkg")]
        "grp" "out" "tmp" false false ≠
      merge_gpkg_files envEnumB [("p1", "f1.gpkg"), ("p2", "f2.gpkg")]
        "grp" "out" "tmp" false false :=
  ⟨enumId_ok, enumRev_ok, rfl, rfl, rfl, by decide, by decide, by decide⟩

/-- C5 (amended): within one run the canonical columns are enumerated in one
shared order — the interpreter's set iteration order applied to the
first-seen union minus the reserved provenance column: a permutation of that
union, without duplicates, used identically by every source's projection
query.  The order is not guaranteed to be first-seen, nor identical across
interpreter runs. -/
theorem C5_shared_enum_order (env : Env) (files : List (String × String))
    (h : SetEnumOK env.setEnum) :
    List.Perm (mergeAllColumns env files)
        ((firstSeenColumnsUnion env files).erase "product_name") ∧
    (mergeAllColumns env files).Nodup ∧
    (∀ productName gpkgPath g,
      sourceSql env (mergeAllColumns env files) productName gpkgPath g =
        "SELECT " ++ String.intercalate ", "
            (sqlColumnsFor (mergeAllColumns env files)
              (schemaColsOf env gpkgPath) g productName)
          ++ " FROM " ++ layerName gpkgPath) := by
  refine ⟨h _, ?_, fun _ _ _ => rfl⟩
  have hnd : ((firstSeenColumnsUnion env files).erase "product_name").Nodup :=
    (dedupFirst_nodup _).erase _
  exact ((h _).nodup_iff).mpr hnd

/-- C5 witness: concrete instance of the amended shared-order property. -/
theorem C5_witness :
    SetEnumOK envEnumA.setEnum ∧
    (mergeAllColumns envEnumA [("p1", "f1.gpkg"), ("p2", "f2.gpkg")]).Nodup :=
  ⟨enumId_ok,
    (C5_shared_enum_order envEnumA [("p1", "f1.gpkg"), ("p2", "f2.gpkg")]
      enumId_ok).2.1⟩

/-- C6 counterexample: in a group with geometry columns `geom, geom, shape`
the canonical geometry name is `geom` (most common), yet source 3's append
command selects `shape AS shape` and passes `-geomfield shape`: neither its
SQL nor any element of its command mentions `geom`, so its geometry is not
renamed to the canonical name. -/
theorem C6_counterexample :
    commonGeomCol envGeoms [("p1", "f1.gpkg"), ("p2", "f2.gpkg"), ("p3", "f3.gpkg")] =
      some (some "geom") ∧
    appendCmdOf envGeoms
        (mergeAllColumns envGeoms [("p1", "f1.gpkg"), ("p2", "f2.gpkg"), ("p3", "f3.gpkg")])
        "grp" (tempOutputPath "tmp" "grp" "u1") ("p3", "f3.gpkg") =
      appendCmd "SELECT shape AS shape, \x27p3\x27 AS product_name FROM f3"
        "grp" "shape" (tempOutputPath "tmp" "grp" "u1") "f3.gpkg" ∧
    Ev.toolCall (appendCmd "SELECT shape AS shape, \x27p3\x27 AS product_name FROM f3"
        "grp" "shape" (tempOutputPath "tmp" "grp" "u1") "f3.gpkg") ∈
      (merge_gpkg_files envGeoms [("p1", "f1.gpkg"), ("p2", "f2.gpkg"), ("p3", "f3.gpkg")]
        "grp" "out" "tmp" false false).events ∧
    strContains "SELECT shape AS shape, \x27p3\x27 AS product_name FROM f3" "geom" = false ∧
    (appendCmd "SELECT shape AS shape, \x27p3\x27 AS product_name FROM f3"
        "grp" "shape" (tempOutputPath "tmp" "grp" "u1") "f3.gpkg").contains "geom" = false := by
  decide

/-- C6 (amended): the canonical geometry-column name is the first-seen name
of maximal occurrence count over the group's distinct sources — but it is
only computed and logged: each source's command aliases its geometry column
to its own sanitized name and passes its own name to `-geomfield`, with no
rename to the canonical name. -/
theorem C6_geom_choice_no_rename (env : Env) (files : List (String × String))
    (hne : geomVals env files ≠ []) :
    (∃ r, commonGeomCol env files = some r ∧
      (∃ pre post, dedupFirst (geomVals env files) = pre ++ r :: post ∧
        ∀ x ∈ pre,
          countOcc (geomVals env files) x < countOcc (geomVals env files) r) ∧
      (∀ x ∈ geomVals env files,
        countOcc (geomVals env files) x ≤ countOcc (geomVals env files) r)) ∧
    (∀ allCols fn tmp (f : String × String) (g : String),
      schemaGeomOf env f.2 = some g →
        (appendCmdOf env allCols fn tmp f).get? 11 = some g ∧
        (appendCmdOf env allCols fn tmp f).get? 7 =
          some (sourceSql env allCols f.1 f.2 g) ∧
        sqlColumnsFor allCols (schemaColsOf env f.2) g f.1 =
          geomClauseStr g :: allCols.map (colClause (schemaColsOf env f.2))
            ++ ["\x27" ++ f.1 ++ "\x27 AS product_name"]) := by
  constructor
  · exact firstMostCommon_spec _ hne
  · intro allCols fn tmp f g hg
    refine ⟨?_, ?_, rfl⟩
    · simp [appendCmdOf, hg, appendCmd]
    · simp [appendCmdOf, hg, appendCmd]

/-- C6 witness: concrete instance of the amended geometry-choice property. -/
theorem C6_witness :
    geomVals envGeoms [("p1", "f1.gpkg"), ("p2", "f2.gpkg"), ("p3", "f3.gpkg")] ≠ [] ∧
    (∃ r, commonGeomCol envGeoms
        [("p1", "f1.gpkg"), ("p2", "f2.gpkg"), ("p3", "f3.gpkg")] = some r ∧
      (∃ pre post,
        dedupFirst (geomVals envGeoms [("p1", "f1.gpkg"), ("p2", "f2.gpkg"), ("p3", "f3.gpkg")]) =
            pre ++ r :: post ∧
        ∀ x ∈ pre,
          countOcc (geomVals envGeoms [("p1", "f1.gpkg"), ("p2", "f2.gpkg"), ("p3", "f3.gpkg")]) x <
            countOcc (geomVals envGeoms [("p1", "f1.gpkg"), ("p2", "f2.gpkg"), ("p3", "f3.gpkg")]) r) ∧
      (∀ x ∈ geomVals envGeoms [("p1", "f1.gpkg"), ("p2", "f2.gpkg"), ("p3", "f3.gpkg")],
        countOcc (geomVals envGeoms [("p1", "f1.gpkg"), ("p2", "f2.gpkg"), ("p3", "f3.gpkg")]) x ≤
          countOcc (geomVals envGeoms [("p1", "f1.gpkg"), ("p2", "f2.gpkg"), ("p3", "f3.gpkg")]) r)) :=
  ⟨by decide,
    (C6_geom_choice_no_rename envGeoms
      [("p1", "f1.gpkg"), ("p2", "f2.gpkg"), ("p3", "f3.gpkg")] (by decide)).1⟩

/-- C8 counterexample: an `ogrinfo` error on one source (which leaves that
source's geometry column as Python `None`) makes the whole group's merge
fail with the `AttributeError` wrapper, and an exception during one source's
introspection (whose bare-list return value fails to unpack) makes the whole
group's merge fail with the `ValueError` wrapper — the group does not
proceed with the remaining sources. -/
theorem C8_counterexample :
    (merge_gpkg_files envToolErr [("p1", "f1.gpkg"), ("p2", "f2.gpkg")]
        "grp" "out" "tmp" false false).success = false ∧
    (merge_gpkg_files envToolErr [("p1", "f1.gpkg"), ("p2", "f2.gpkg")]
        "grp" "out" "tmp" false false).err =
      some ("Error merging files: " ++ attributeErrorMsg) ∧
    (merge_gpkg_files envRaise [("p1", "f1.gpkg"), ("p2", "f2.gpkg")]
        "grp" "out" "tmp" false false).success = false ∧
    (merge_gpkg_files envRaise [("p1", "f1.gpkg"), ("p2", "f2.gpkg")]
        "grp" "out" "tmp" false false).err =
      some ("Error merging files: " ++ valueErrorMsg) := by
  decide

/-- C8 (amended): only the "tool reports no geometry column" case is
tolerated — it falls back to the default name `GEOMETRY` and the merge
proceeds.  A Geometry Tool error during introspection, or an exception
raised by the introspection, is not isolated to that source: the group's
merge returns failure. -/
theorem C8_introspection_failures (env : Env) :
    (∀ gpkgPath rc stderr lines cols,
        env.intro gpkgPath = IntroEnv.run rc stderr lines → rc = 0 →
        parseLines lines = Except.ok (cols, none) →
        analyze_schema env gpkgPath = SchemaResult.pair cols (some "GEOMETRY")) ∧
    (∀ (files : List (String × String)) fn op td oe fr,
        (∃ f ∈ files, analyze_schema env f.2 = SchemaResult.bareList) →
        (merge_gpkg_files env files fn op td oe fr).success = false) ∧
    (∀ (files : List (String × String)) fn op td oe fr,
        (∀ f ∈ files, analyze_schema env f.2 ≠ SchemaResult.bareList) →
        (∃ f ∈ files, schemaGeomOf env f.2 = none) →
        (merge_gpkg_files env files fn op td oe fr).success = false) := by
  refine ⟨?_, ?_, ?_⟩
  · intro gpkgPath rc stderr lines cols hin hrc hpl
    subst hrc
    simp [analyze_schema, hin, hpl]
  · intro files fn op td oe fr hex
    rcases files with _ | ⟨f0, rest⟩
    · obtain ⟨f, hf, -⟩ := hex
      cases hf
    · have hap := analyzePhase_exc env (f0 :: rest) hex
      rcases Bool.eq_false_or_eq_true (oe && !fr) with hguard | hguard <;>
        simp [merge_gpkg_files, hguard, hap]
  · intro files fn op td oe fr hb hex
    rcases files with _ | ⟨f0, rest⟩
    · obtain ⟨f, hf, -⟩ := hex
      cases hf
    · have hap := analyzePhase_ok env (f0 :: rest) hb
      cases hguard : (oe && !fr) with
      | true => simp [merge_gpkg_files, hguard]
      | false =>
        cases hg0 : schemaGeomOf env f0.2 with
        | none => simp [merge_gpkg_files, hguard, hap, hg0]
        | some g0 =>
          have hrest : ∃ f ∈ rest, schemaGeomOf env f.2 = none := by
            obtain ⟨f, hf, hfn⟩ := hex
            rcases List.mem_cons.mp hf with rfl | hf'
            · rw [hg0] at hfn
              cases hfn
            · exact ⟨f, hf', hfn⟩
          have happ := appendPhase_exc env (mergeAllColumns env (f0 :: rest)) fn
            (tempOutputPath td fn env.uid) rest hrest
          cases hrc :
              ((env.tool (seedCmd (sourceSql env (mergeAllColumns env (f0 :: rest)) f0.1 f0.2 g0)
                fn g0 (tempOutputPath td fn env.uid) f0.2)).returncode != 0) <;>
            simp [merge_gpkg_files, hguard, hap, hg0, happ, hrc]

/-- C8 witness: concrete instance of the amended introspection-failure
behaviour, at the tool-error environment. -/
theorem C8_witness :
    (∀ f ∈ [("p1", "f1.gpkg"), ("p2", "f2.gpkg")],
        analyze_schema envToolErr f.2 ≠ SchemaResult.bareList) ∧
    (∃ f ∈ [("p1", "f1.gpkg"), ("p2", "f2.gpkg")],
        schemaGeomOf envToolErr f.2 = none) ∧
    (merge_gpkg_files envToolErr [("p1", "f1.gpkg"), ("p2", "f2.gpkg")]
        "grp" "out" "tmp" false false).success = false :=
  ⟨by decide, by decide,
    (C8_introspection_failures envToolErr).2.2
      [("p1", "f1.gpkg"), ("p2", "f2.gpkg")] "grp" "out" "tmp" false false
      (by decide) (by decide)⟩

/-! ### C2 -/

/-- C2: a Geometry Tool failure on the seed invocation aborts the whole
group with a failure result carrying the tool's stderr, with no output
produced (the canonical path is never touched) and no further tool calls;
when the seed succeeds, a tool failure on any append does not abort the
group: every subsequent source's append command is issued and the group
returns success. -/
theorem C2_seed_fatal_append_continues (env : Env) (f0 : String × String)
    (rest : List (String × String)) (filename outputPath tempDir : String)
    (hb : ∀ f ∈ f0 :: rest, analyze_schema env f.2 ≠ SchemaResult.bareList)
    (hg : ∀ f ∈ f0 :: rest, schemaGeomOf env f.2 ≠ none)
    (g0 : String) (hg0 : schemaGeomOf env f0.2 = some g0) :
    ((env.tool (seedCmd (sourceSql env (mergeAllColumns env (f0 :: rest)) f0.1 f0.2 g0)
          filename g0 (tempOutputPath tempDir filename env.uid) f0.2)).returncode ≠ 0 →
      (merge_gpkg_files env (f0 :: rest) filename outputPath tempDir false false).success
          = false ∧
      (merge_gpkg_files env (f0 :: rest) filename outputPath tempDir false false).err =
        some (env.tool (seedCmd (sourceSql env (mergeAllColumns env (f0 :: rest)) f0.1 f0.2 g0)
          filename g0 (tempOutputPath tempDir filename env.uid) f0.2)).stderr ∧
      (∀ e ∈ (merge_gpkg_files env (f0 :: rest) filename outputPath tempDir false false).events,
        touchesCanonical e = false) ∧
      (∀ c, Ev.toolCall c ∈
          (merge_gpkg_files env (f0 :: rest) filename outputPath tempDir false false).events →
        c = seedCmd (sourceSql env (mergeAllColumns env (f0 :: rest)) f0.1 f0.2 g0)
          filename g0 (tempOutputPath tempDir filename env.uid) f0.2)) ∧
    ((env.tool (seedCmd (sourceSql env (mergeAllColumns env (f0 :: rest)) f0.1 f0.2 g0)
          filename g0 (tempOutputPath tempDir filename env.uid) f0.2)).returncode = 0 →
      (merge_gpkg_files env (f0 :: rest) filename outputPath tempDir false false).success
          = true ∧
      (∀ f ∈ rest,
        Ev.toolCall (appendCmdOf env (mergeAllColumns env (f0 :: rest)) filename
            (tempOutputPath tempDir filename env.uid) f) ∈
          (merge_gpkg_files env (f0 :: rest) filename outputPath tempDir false false).events)) := by
  have hap := analyzePhase_ok env (f0 :: rest) hb
  have hgr : ∀ f ∈ rest, schemaGeomOf env f.2 ≠ none :=
    fun f hf => hg f (List.mem_cons_of_mem f0 hf)
  have happ := appendPhase_ok env (mergeAllColumns env (f0 :: rest)) filename
    (tempOutputPath tempDir filename env.uid) rest hgr
  constructor
  · intro hrc
    have hrcb : ((env.tool (seedCmd (sourceSql env (mergeAllColumns env (f0 :: rest)) f0.1 f0.2 g0)
        filename g0 (tempOutputPath tempDir filename env.uid) f0.2)).returncode != 0) = true :=
      bne_iff_ne.mpr hrc
    have heval : merge_gpkg_files env (f0 :: rest) filename outputPath tempDir false false =
        ⟨false,
          some (env.tool (seedCmd (sourceSql env (mergeAllColumns env (f0 :: rest)) f0.1 f0.2 g0)
            filename g0 (tempOutputPath tempDir filename env.uid) f0.2)).stderr,
          (f0 :: rest).map (fun f => Ev.analyzeCall f.2)
            ++ [Ev.toolCall (seedCmd (sourceSql env (mergeAllColumns env (f0 :: rest)) f0.1 f0.2 g0)
              filename g0 (tempOutputPath tempDir filename env.uid) f0.2)]⟩ := by
      simp [merge_gpkg_files, hap, hg0, hrcb]
    refine ⟨by rw [heval], by rw [heval], ?_, ?_⟩
    · intro e he
      rw [heval] at he
      simp only [List.mem_append, List.mem_map, List.mem_singleton] at he
      rcases he with ⟨f, -, rfl⟩ | rfl <;> rfl
    · intro c hc
      rw [heval] at hc
      simp only [List.mem_append, List.mem_map, List.mem_singleton] at hc
      rcases hc with ⟨f, -, h⟩ | h
      · cases h
      · exact Ev.toolCall.inj h
  · intro hrc0
    have hrcb : ((env.tool (seedCmd (sourceSql env (mergeAllColumns env (f0 :: rest)) f0.1 f0.2 g0)
        filename g0 (tempOutputPath tempDir filename env.uid) f0.2)).returncode != 0) = false := by
      simp [hrc0]
    refine ⟨?_, ?_⟩
    · simp [merge_gpkg_files, hap, hg0, hrcb, happ]
    · intro f hf
      have hmem : Ev.toolCall (appendCmdOf env (mergeAllColumns env (f0 :: rest)) filename
          (tempOutputPath tempDir filename env.uid) f) ∈
          rest.map (fun f => Ev.toolCall (appendCmdOf env (mergeAllColumns env (f0 :: rest))
            filename (tempOutputPath tempDir filename env.uid) f)) :=
        List.mem_map_of_mem _ hf
      have heval : (merge_gpkg_files env (f0 :: rest) filename outputPath tempDir false false).events =
          (f0 :: rest).map (fun f => Ev.analyzeCall f.2)
            ++ Ev.toolCall (seedCmd (sourceSql env (mergeAllColumns env (f0 :: rest)) f0.1 f0.2 g0)
                filename g0 (tempOutputPath tempDir filename env.uid) f0.2)
              :: (rest.map (fun f => Ev.toolCall (appendCmdOf env (mergeAllColumns env (f0 :: rest))
                  filename (tempOutputPath tempDir filename env.uid) f))
                ++ [Ev.copyStart, Ev.copyFinish, Ev.removeTemp]) := by
        simp [merge_gpkg_files, hap, hg0, hrcb, happ]
      rw [heval]
      exact List.mem_append_right _
        (List.mem_cons_of_mem _ (List.mem_append_left _ hmem))

/-- C2 witness: concrete instance with two sources, all tool calls
succeeding. -/
theorem C2_witness :
    (∀ f ∈ [("p1", "f1.gpkg"), ("p2", "f2.gpkg")],
        analyze_schema envOK f.2 ≠ SchemaResult.bareList) ∧
    (∀ f ∈ [("p1", "f1.gpkg"), ("p2", "f2.gpkg")],
        schemaGeomOf envOK f.2 ≠ none) ∧
    schemaGeomOf envOK "f1.gpkg" = some "GEOMETRY" ∧
    (merge_gpkg_files envOK [("p1", "f1.gpkg"), ("p2", "f2.gpkg")]
        "grp" "out" "tmp" false false).success = true :=
  ⟨by decide, by decide, by decide,
    ((C2_seed_fatal_append_continues envOK ("p1", "f1.gpkg") [("p2", "f2.gpkg")]
        "grp" "out" "tmp" (by decide) (by decide) "GEOMETRY" (by decide)).2
      (by decide)).1⟩

/-! ### C3 -/

/-- The schema-analysis loop ignores the `ogr2ogr` oracle, the uuid, and the
set order. -/
theorem analyzePhase_tool_irrel (i : String → IntroEnv)
    (t t' : List String → ToolResult) (u u' : String)
    (s s' : List String → List String) :
    ∀ l, analyzePhase ⟨i, t, u, s⟩ l = analyzePhase ⟨i, t', u', s'⟩ l := by
  intro l
  induction l with
  | nil => rfl
  | cons f rest ih =>
    cases ha : analyze_schema ⟨i, t, u, s⟩ f.2 with
    | bareList =>
      have ha' : analyze_schema ⟨i, t', u', s'⟩ f.2 = SchemaResult.bareList := ha
      simp [analyzePhase, ha, ha']
    | pair cols geom =>
      have ha' : analyze_schema ⟨i, t', u', s'⟩ f.2 = SchemaResult.pair cols geom := ha
      simp only [analyzePhase, ha, ha']
      rw [ih]

/-- The append loop's value ignores the `ogr2ogr` results (the tool is
invoked but its result discarded), the uuid, and the set order. -/
theorem appendPhase_tool_irrel (i : String → IntroEnv)
    (t t' : List String → ToolResult) (u u' : String)
    (s s' : List String → List String) (A : List String) (fn tmp : String) :
    ∀ l, appendPhase ⟨i, t, u, s⟩ A fn tmp l = appendPhase ⟨i, t', u', s'⟩ A fn tmp l := by
  intro l
  induction l with
  | nil => rfl
  | cons f rest ih =>
    cases hg : schemaGeomOf ⟨i, t, u, s⟩ f.2 with
    | none =>
      have hg' : schemaGeomOf ⟨i, t', u', s'⟩ f.2 = none := hg
      simp [appendPhase, hg, hg']
    | some g =>
      have hg' : schemaGeomOf ⟨i, t', u', s'⟩ f.2 = some g := hg
      simp only [appendPhase, hg, hg']
      rw [ih]
      exact rfl

/-- C3 counterexample: when source #2 of 3 fails to append, the value
returned by the merge and the row recorded for the group are literally
identical to those of a run in which every source succeeds: overall success
with no error and no per-source outcome — nothing identifies
`failed_sources = {2}`. -/
theorem C3_counterexample :
    (envFail2.tool (appendCmdOf envFail2
        (mergeAllColumns envFail2 [("p1", "f1.gpkg"), ("p2", "f2.gpkg"), ("p3", "f3.gpkg")])
        "grp" (tempOutputPath "tmp" "grp" "u1") ("p2", "f2.gpkg"))).returncode = 1 ∧
    merge_gpkg_files envFail2 [("p1", "f1.gpkg"), ("p2", "f2.gpkg"), ("p3", "f3.gpkg")]
        "grp" "outdir/grp.gpkg" "tmp" false false =
      merge_gpkg_files envOK [("p1", "f1.gpkg"), ("p2", "f2.gpkg"), ("p3", "f3.gpkg")]
        "grp" "outdir/grp.gpkg" "tmp" false false ∧
    (merge_gpkg_files envFail2 [("p1", "f1.gpkg"), ("p2", "f2.gpkg"), ("p3", "f3.gpkg")]
        "grp" "outdir/grp.gpkg" "tmp" false false).success = true ∧
    process_filename_group envFail2 [("p1", "f1.gpkg"), ("p2", "f2.gpkg"), ("p3", "f3.gpkg")]
        "grp" "outdir" "tmp" false false =
      (true, some ⟨"grp", 3, "outdir/grp.gpkg", true, none⟩) := by
  decide

/-- C3 (amended): the merge returns only an overall `(success, error)` pair;
once the seed invocation succeeds, the outcome (and hence the logged row) is
invariant under arbitrary changes to the tool's results on the append
commands, and the group is recorded as an undifferentiated success — no
per-source succeeded/failed sets exist in the result. -/
theorem C3_append_failures_invisible (env : Env) (t : List String → ToolResult)
    (f0 : String × String) (rest : List (String × String))
    (filename mergedDir tempDir : String)
    (hb : ∀ f ∈ f0 :: rest, analyze_schema env f.2 ≠ SchemaResult.bareList)
    (hg : ∀ f ∈ f0 :: rest, schemaGeomOf env f.2 ≠ none)
    (g0 : String) (hg0 : schemaGeomOf env f0.2 = some g0)
    (hseed : t (seedCmd (sourceSql env (mergeAllColumns env (f0 :: rest)) f0.1 f0.2 g0)
        filename g0 (tempOutputPath tempDir filename env.uid) f0.2) =
      env.tool (seedCmd (sourceSql env (mergeAllColumns env (f0 :: rest)) f0.1 f0.2 g0)
        filename g0 (tempOutputPath tempDir filename env.uid) f0.2))
    (hok : (env.tool (seedCmd (sourceSql env (mergeAllColumns env (f0 :: rest)) f0.1 f0.2 g0)
        filename g0 (tempOutputPath tempDir filename env.uid) f0.2)).returncode = 0) :
    merge_gpkg_files ⟨env.intro, t, env.uid, env.setEnum⟩ (f0 :: rest) filename
        (mergedDir ++ "/" ++ filename ++ ".gpkg") tempDir false false =
      merge_gpkg_files env (f0 :: rest) filename
        (mergedDir ++ "/" ++ filename ++ ".gpkg") tempDir false false ∧
    (merge_gpkg_files env (f0 :: rest) filename
        (mergedDir ++ "/" ++ filename ++ ".gpkg") tempDir false false).success = true ∧
    process_filename_group env (f0 :: rest) filename mergedDir tempDir false false =
      (true, some ⟨filename, (f0 :: rest).length,
        mergedDir ++ "/" ++ filename ++ ".gpkg", true, none⟩) := by
  have hb' : ∀ f ∈ f0 :: rest,
      analyze_schema ⟨env.intro, t, env.uid, env.setEnum⟩ f.2 ≠ SchemaResult.bareList := hb
  have hap := analyzePhase_ok env (f0 :: rest) hb
  have hap' := analyzePhase_ok ⟨env.intro, t, env.uid, env.setEnum⟩ (f0 :: rest) hb'
  have hg0' : schemaGeomOf ⟨env.intro, t, env.uid, env.setEnum⟩ f0.2 = some g0 := hg0
  have hAC : mergeAllColumns ⟨env.intro, t, env.uid, env.setEnum⟩ (f0 :: rest) =
      mergeAllColumns env (f0 :: rest) := rfl
  have hgr : ∀ f ∈ rest, schemaGeomOf env f.2 ≠ none :=
    fun f hf => hg f (List.mem_cons_of_mem f0 hf)
  have hgr' : ∀ f ∈ rest, schemaGeomOf ⟨env.intro, t, env.uid, env.setEnum⟩ f.2 ≠ none := hgr
  have happ := appendPhase_ok env (mergeAllColumns env (f0 :: rest)) filename
    (tempOutputPath tempDir filename env.uid) rest hgr
  have happ' := appendPhase_ok ⟨env.intro, t, env.uid, env.setEnum⟩
    (mergeAllColumns env (f0 :: rest)) filename
    (tempOutputPath tempDir filename env.uid) rest hgr'
  have hACmd : ∀ f : String × String,
      appendCmdOf ⟨env.intro, t, env.uid, env.setEnum⟩ (mergeAllColumns env (f0 :: rest))
          filename (tempOutputPath tempDir filename env.uid) f =
        appendCmdOf env (mergeAllColumns env (f0 :: rest))
          filename (tempOutputPath tempDir filename env.uid) f :=
    fun _ => rfl
  have hSS : ∀ g : String,
      sourceSql ⟨env.intro, t, env.uid, env.setEnum⟩ (mergeAllColumns env (f0 :: rest))
          f0.1 f0.2 g =
        sourceSql env (mergeAllColumns env (f0 :: rest)) f0.1 f0.2 g :=
    fun _ => rfl
  have htL : (t (seedCmd (sourceSql env (mergeAllColumns env (f0 :: rest)) f0.1 f0.2 g0)
      filename g0 (tempOutputPath tempDir filename env.uid) f0.2)).returncode = 0 := by
    rw [hseed]; exact hok
  have hrcbL : ((t (seedCmd (sourceSql env (mergeAllColumns env (f0 :: rest)) f0.1 f0.2 g0)
      filename g0 (tempOutputPath tempDir filename env.uid) f0.2)).returncode != 0) = false := by
    simp [htL]
  have hrcb : ((env.tool (seedCmd (sourceSql env (mergeAllColumns env (f0 :: rest)) f0.1 f0.2 g0)
      filename g0 (tempOutputPath tempDir filename env.uid) f0.2)).returncode != 0) = false := by
    simp [hok]
  refine ⟨?_, ?_, ?_⟩
  · simp [merge_gpkg_files, hap, hap', hg0, hg0', hAC, hSS, hACmd, happ, happ', hrcb, hrcbL]
  · simp [merge_gpkg_files, hap, hg0, happ, hrcb]
  · have hm : (merge_gpkg_files env (f0 :: rest) filename
        (mergedDir ++ "/" ++ filename ++ ".gpkg") tempDir false false).success = true := by
      simp [merge_gpkg_files, hap, hg0, happ, hrcb]
    simp [process_filename_group, hm]

/-- C3 witness: concrete instance of the amended invariance, with the
failing-on-source-2 tool against the all-success tool. -/
theorem C3_witness :
    (∀ f ∈ [("p1", "f1.gpkg"), ("p2", "f2.gpkg")],
        schemaGeomOf envOK f.2 ≠ none) ∧
    merge_gpkg_files ⟨envOK.intro, toolFailF2, envOK.uid, envOK.setEnum⟩
        [("p1", "f1.gpkg"), ("p2", "f2.gpkg")] "grp" "outdir/grp.gpkg" "tmp" false false =
      merge_gpkg_files envOK [("p1", "f1.gpkg"), ("p2", "f2.gpkg")]
        "grp" "outdir/grp.gpkg" "tmp" false false :=
  ⟨by decide,
    (C3_append_failures_invisible envOK toolFailF2 ("p1", "f1.gpkg") [("p2", "f2.gpkg")]
      "grp" "outdir" "tmp" (by decide) (by decide) "GEOMETRY" (by decide)
      (by decide) (by decide)).1⟩

/-! ### C4 -/

/-- C4 counterexample: in a force-rebuild merge over an existing output, the
trace reaches a state where the canonical path is deleted (previous output
destroyed before the new one is in place) and then a state where the
canonical path holds a half-written file (the final `copy2` is not atomic),
refuting "the previous output is untouched until the new one is complete and
no point leaves a half-written file at the canonical path". -/
theorem C4_counterexample :
    (merge_gpkg_files envOK [("p1", "f1.gpkg")] "grp" "out" "tmp" true true).success = true ∧
    canonicalAfter ((merge_gpkg_files envOK [("p1", "f1.gpkg")] "grp" "out" "tmp"
        true true).events.take 3) = CanonState.absent ∧
    canonicalAfter ((merge_gpkg_files envOK [("p1", "f1.gpkg")] "grp" "out" "tmp"
        true true).events.take 4) = CanonState.halfWritten := by
  decide

/-- C4 (amended): every tool invocation writes only to the uniquely-named
temporary file and the canonical path is untouched while sources are being
processed — in particular a merge that fails never touches the canonical
path.  But the final placement is not atomic: a successful merge ends with
the sequence "delete existing output (under force-rebuild), start copy,
finish copy, delete temp", so between the delete and the end of the copy the
canonical path is missing or half-written. -/
theorem C4_temp_then_nonatomic_copy (env : Env) (files : List (String × String))
    (filename outputPath tempDir : String) (oe fr : Bool) :
    ((merge_gpkg_files env files filename outputPath tempDir oe fr).success = false →
      ∀ e ∈ (merge_gpkg_files env files filename outputPath tempDir oe fr).events,
        touchesCanonical e = false) ∧
    ((merge_gpkg_files env files filename outputPath tempDir oe fr).success = true →
      ∃ pre, (merge_gpkg_files env files filename outputPath tempDir oe fr).events =
          pre ++ ((if oe then [Ev.removeFinal] else [])
            ++ [Ev.copyStart, Ev.copyFinish, Ev.removeTemp]) ∧
        (∀ e ∈ pre, touchesCanonical e = false) ∧
        (∀ c, Ev.toolCall c ∈ pre → ∃ sql g src,
          c = seedCmd sql filename g (tempOutputPath tempDir filename env.uid) src ∨
          c = appendCmd sql filename g (tempOutputPath tempDir filename env.uid) src)) := by
  rcases files with _ | ⟨f0, rest⟩
  · constructor
    · intro _ e he
      simp [merge_gpkg_files] at he
    · intro hs
      simp [merge_gpkg_files] at hs
  · cases hguard : (oe && !fr) with
    | true =>
      have heval : merge_gpkg_files env (f0 :: rest) filename outputPath tempDir oe fr =
          ⟨false, some "Output file already exists", []⟩ := by
        simp [merge_gpkg_files, hguard]
      constructor
      · intro _ e he
        rw [heval] at he
        simp at he
      · intro hs
        rw [heval] at hs
        simp at hs
    | false =>
      cases hap : (analyzePhase env (f0 :: rest)).2 with
      | some m =>
        have heval : merge_gpkg_files env (f0 :: rest) filename outputPath tempDir oe fr =
            ⟨false, some ("Error merging files: " ++ m), (analyzePhase env (f0 :: rest)).1⟩ := by
          simp [merge_gpkg_files, hguard, hap]
        constructor
        · intro _ e he
          rw [heval] at he
          obtain ⟨p, rfl⟩ := analyzePhase_events env (f0 :: rest) e he
          rfl
        · intro hs
          rw [heval] at hs
          simp at hs
      | none =>
        cases hg0 : schemaGeomOf env f0.2 with
        | none =>
          have heval : merge_gpkg_files env (f0 :: rest) filename outputPath tempDir oe fr =
              ⟨false, some ("Error merging files: " ++ attributeErrorMsg),
                (analyzePhase env (f0 :: rest)).1⟩ := by
            simp [merge_gpkg_files, hguard, hap, hg0]
          constructor
          · intro _ e he
            rw [heval] at he
            obtain ⟨p, rfl⟩ := analyzePhase_events env (f0 :: rest) e he
            rfl
          · intro hs
            rw [heval] at hs
            simp at hs
        | some g0 =>
          cases hrc : ((env.tool (seedCmd (sourceSql env (mergeAllColumns env (f0 :: rest))
              f0.1 f0.2 g0) filename g0 (tempOutputPath tempDir filename env.uid)
              f0.2)).returncode != 0) with
          | true =>
            have heval : merge_gpkg_files env (f0 :: rest) filename outputPath tempDir oe fr =
                ⟨false,
                  some (env.tool (seedCmd (sourceSql env (mergeAllColumns env (f0 :: rest))
                    f0.1 f0.2 g0) filename g0 (tempOutputPath tempDir filename env.uid)
                    f0.2)).stderr,
                  (analyzePhase env (f0 :: rest)).1
                    ++ [Ev.toolCall (seedCmd (sourceSql env (mergeAllColumns env (f0 :: rest))
                      f0.1 f0.2 g0) filename g0 (tempOutputPath tempDir filename env.uid)
                      f0.2)]⟩ := by
              simp [merge_gpkg_files, hguard, hap, hg0, hrc]
            constructor
            · intro _ e he
              rw [heval] at he
              rcases List.mem_append.mp he with h1 | h1
              · obtain ⟨p, rfl⟩ := analyzePhase_events env (f0 :: rest) e h1
                rfl
              · rw [List.mem_singleton.mp h1]
                rfl
            · intro hs
              rw [heval] at hs
              simp at hs
          | false =>
            cases happ : (appendPhase env (mergeAllColumns env (f0 :: rest)) filename
                (tempOutputPath tempDir filename env.uid) rest).2 with
            | some m =>
              have heval : merge_gpkg_files env (f0 :: rest) filename outputPath tempDir oe fr =
                  ⟨false, some ("Error merging files: " ++ m),
                    (analyzePhase env (f0 :: rest)).1
                      ++ Ev.toolCall (seedCmd (sourceSql env (mergeAllColumns env (f0 :: rest))
                          f0.1 f0.2 g0) filename g0 (tempOutputPath tempDir filename env.uid)
                          f0.2)
                        :: (appendPhase env (mergeAllColumns env (f0 :: rest)) filename
                          (tempOutputPath tempDir filename env.uid) rest).1⟩ := by
                simp [merge_gpkg_files, hguard, hap, hg0, hrc, happ]
              constructor
              · intro _ e he
                rw [heval] at he
                rcases List.mem_append.mp he with h1 | h1
                · obtain ⟨p, rfl⟩ := analyzePhase_events env (f0 :: rest) e h1
                  rfl
                · rcases List.mem_cons.mp h1 with rfl | h2
                  · rfl
                  · obtain ⟨sql, g, src, rfl⟩ := appendPhase_events env
                      (mergeAllColumns env (f0 :: rest)) filename
                      (tempOutputPath tempDir filename env.uid) rest e h2
                    rfl
              · intro hs
                rw [heval] at hs
                simp at hs
            | none =>
              have heval : merge_gpkg_files env (f0 :: rest) filename outputPath tempDir oe fr =
                  ⟨true, none,
                    (analyzePhase env (f0 :: rest)).1
                      ++ Ev.toolCall (seedCmd (sourceSql env (mergeAllColumns env (f0 :: rest))
                          f0.1 f0.2 g0) filename g0 (tempOutputPath tempDir filename env.uid)
                          f0.2)
                        :: ((appendPhase env (mergeAllColumns env (f0 :: rest)) filename
                            (tempOutputPath tempDir filename env.uid) rest).1
                          ++ ((if oe then [Ev.removeFinal] else [])
                            ++ [Ev.copyStart, Ev.copyFinish, Ev.removeTemp]))⟩ := by
                simp [merge_gpkg_files, hguard, hap, hg0, hrc, happ]
              constructor
              · intro hs
                rw [heval] at hs
                simp at hs
              · intro _
                refine ⟨(analyzePhase env (f0 :: rest)).1
                  ++ Ev.toolCall (seedCmd (sourceSql env (mergeAllColumns env (f0 :: rest))
                      f0.1 f0.2 g0) filename g0 (tempOutputPath tempDir filename env.uid)
                      f0.2)
                    :: (appendPhase env (mergeAllColumns env (f0 :: rest)) filename
                      (tempOutputPath tempDir filename env.uid) rest).1, ?_, ?_, ?_⟩
                · rw [heval]
                  simp [List.append_assoc, List.cons_append]
                · intro e he
                  rcases List.mem_append.mp he with h1 | h1
                  · obtain ⟨p, rfl⟩ := analyzePhase_events env (f0 :: rest) e h1
                    rfl
                  · rcases List.mem_cons.mp h1 with rfl | h2
                    · rfl
                    · obtain ⟨sql, g, src, rfl⟩ := appendPhase_events env
                        (mergeAllColumns env (f0 :: rest)) filename
                        (tempOutputPath tempDir filename env.uid) rest e h2
                      rfl
                · intro c hc
                  rcases List.mem_append.mp hc with h1 | h1
                  · obtain ⟨p, hp⟩ := analyzePhase_events env (f0 :: rest) _ h1
                    cases hp
                  · rcases List.mem_cons.mp h1 with h2 | h2
                    · exact ⟨sourceSql env (mergeAllColumns env (f0 :: rest)) f0.1 f0.2 g0,
                        g0, f0.2, Or.inl (Ev.toolCall.inj h2)⟩
                    · obtain ⟨sql, g, src, hp⟩ := appendPhase_events env
                        (mergeAllColumns env (f0 :: rest)) filename
                        (tempOutputPath tempDir filename env.uid) rest _ h2
                      exact ⟨sql, g, src, Or.inr (Ev.toolCall.inj hp)⟩

/-- C4 witness: concrete instance of the amended trace-shape property. -/
theorem C4_witness :
    (merge_gpkg_files envOK [("p1", "f1.gpkg")] "grp" "out" "tmp" true true).success = true ∧
    (∃ pre, (merge_gpkg_files envOK [("p1", "f1.gpkg")] "grp" "out" "tmp" true true).events =
        pre ++ ((if true then [Ev.removeFinal] else [])
          ++ [Ev.copyStart, Ev.copyFinish, Ev.removeTemp]) ∧
      (∀ e ∈ pre, touchesCanonical e = false) ∧
      (∀ c, Ev.toolCall c ∈ pre → ∃ sql g src,
        c = seedCmd sql "grp" g (tempOutputPath "tmp" "grp" envOK.uid) src ∨
        c = appendCmd sql "grp" g (tempOutputPath "tmp" "grp" envOK.uid) src)) :=
  ⟨by decide,
    (C4_temp_then_nonatomic_copy envOK [("p1", "f1.gpkg")] "grp" "out" "tmp" true true).2
      (by decide)⟩

end Fema

